import Mathlib

/-!
Shallow embedding of the viklyst ML pipeline (src/ml/train.py and
src/ml/serve.py) and verification of its specification claims.

Modelling conventions:
* pandas float64 values are modelled as `ℚ`; a missing value (NaN) is `none`
  in `Option ℚ`.  A pandas column is a `Series := List (Option ℚ)`.
* The square root used by `rolling(k).std()` is not rational-valued, so it is
  passed as an explicit parameter `sqrt : ℚ → ℚ`; no claim below depends on
  its values.
* Division by zero yields Lean's `q / 0 = 0` where pandas would produce
  `inf`; both are non-NaN, so NaN-propagation (`dropna`) behaviour agrees.
* Python strings are Lean `String`s; comparisons and case mapping are done
  on the underlying `List Char` (Python strings are codepoint sequences).
-/

/-- A pandas column: one optional rational per row, `none` modelling NaN. -/
abbrev Series : Type := List (Option ℚ)

/-- Sequence a list of optional values: `some` of the list of values when every
entry is present, `none` as soon as any entry is NaN. -/
def allSome : Series → Option (List ℚ)
  | [] => some []
  | none :: _ => none
  | some x :: xs => (allSome xs).map (fun l => x :: l)

/-- Arithmetic mean of a window, as computed by `rolling(k).mean()`. -/
def listMean (l : List ℚ) : ℚ := l.sum / (l.length : ℚ)

/-- Sample variance (ddof = 1), the square of pandas' `rolling(k).std()`. -/
def sampleVar (l : List ℚ) : ℚ :=
  (l.map (fun x => (x - listMean l) ^ 2)).sum / ((l.length : ℚ) - 1)

/-- pandas `rolling(k)` aggregation with the default `min_periods = k`:
row `i` is defined only when the trailing window of `k` observations exists
and contains no NaN. -/
def rollingApply (k : ℕ) (f : List ℚ → ℚ) (xs : Series) : Series :=
  (List.range xs.length).map fun i =>
    if i + 1 < k then none
    else (allSome ((xs.drop (i + 1 - k)).take k)).map f

/-- pandas `rolling(k).mean()`. -/
def rollingMean (k : ℕ) (xs : Series) : Series := rollingApply k listMean xs

/-- pandas `rolling(k).std()` (sample standard deviation, ddof = 1), with the
square root as an explicit parameter. -/
def rollingStd (sqrt : ℚ → ℚ) (k : ℕ) (xs : Series) : Series :=
  rollingApply k (fun w => sqrt (sampleVar w)) xs

/-- pandas `pct_change()`: row 0 is NaN, row `i` is `x[i]/x[i-1] - 1`.
In this codebase it is only applied to NaN-free columns (`close`, `volume`),
so the NaN branches are defensive. -/
def pctChange (xs : Series) : Series :=
  (List.range xs.length).map fun i =>
    if i = 0 then none
    else
      match xs.getD i none, xs.getD (i - 1) none with
      | some a, some b => some (a / b - 1)
      | _, _ => none

/-- Elementwise division of two columns (NaN-propagating). -/
def divSeries (xs ys : Series) : Series :=
  List.zipWith
    (fun a b =>
      match a, b with
      | some x, some y => some (x / y)
      | _, _ => none)
    xs ys

/-- Subtract a constant from every defined entry of a column. -/
def subConstSeries (xs : Series) (c : ℚ) : Series :=
  xs.map (fun a => a.map (fun x => x - c))

/-- pandas `shift(-1)`: row `i` takes the value of row `i + 1`; the final row
becomes NaN. -/
def shiftMinus1 (xs : Series) : Series :=
  (List.range xs.length).map fun i => xs.getD (i + 1) none

/-- pandas `(xs > ys).astype(int)`: any comparison involving NaN is `False`,
and `astype(int)` turns the booleans into 0/1 integers, so NaN never survives
into the result. -/
def seriesGtToInt (xs ys : Series) : List ℤ :=
  List.zipWith
    (fun a b =>
      match a, b with
      | some x, some y => if y < x then (1 : ℤ) else 0
      | _, _ => (0 : ℤ))
    xs ys

/-- One daily bar, sorted ascending by `day` before feature engineering.
Only the columns the feature code reads (`day`, `close`, `volume`) are
modelled; `open`/`high`/`low` are carried along unused in the source. -/
structure Bar where
  day : ℕ
  close : ℚ
  volume : ℚ
deriving DecidableEq

/-- The `close` column of a bar frame (never NaN). -/
def closeSeries (df : List Bar) : Series := df.map (fun b => some b.close)

/-- The `volume` column of a bar frame (never NaN). -/
def volumeSeries (df : List Bar) : Series := df.map (fun b => some b.volume)

/-- The eight engineered feature values of one row, each possibly NaN. -/
structure FeatVals where
  ret_1d : Option ℚ
  ma_5 : Option ℚ
  ma_10 : Option ℚ
  close_over_ma5 : Option ℚ
  close_over_ma10 : Option ℚ
  vol_5 : Option ℚ
  vol_10 : Option ℚ
  volchg_1d : Option ℚ
deriving DecidableEq

/-- Whether `dropna` keeps a row: every engineered column must be defined.
The raw columns (`day`, `close`, `volume`) and the integer target are never
NaN, so they impose no further condition. -/
def featComplete (f : FeatVals) : Bool :=
  f.ret_1d.isSome && f.ma_5.isSome && f.ma_10.isSome &&
  f.close_over_ma5.isSome && f.close_over_ma10.isSome &&
  f.vol_5.isSome && f.vol_10.isSome && f.volchg_1d.isSome

/-- train.py line 64: `(out["close"].shift(-1) > out["close"]).astype(int)`.
Note the cast to `int` happens before `dropna`, so the final row (whose
shifted close is NaN, and whose comparison is therefore `False`) gets the
label 0 rather than NaN. -/
def targetSeries (df : List Bar) : List ℤ :=
  seriesGtToInt (shiftMinus1 (closeSeries df)) (closeSeries df)

/-- A JSON value as it appears in the artifact metadata record. -/
inductive MetaVal where
  | s (v : String)
  | arr (v : List String)
  | q (v : ℚ)
deriving DecidableEq

/-- Python truthiness of an optional metadata value: `None`, `[]`, `""` and
`0` are falsy. -/
def pyFalsy : Option MetaVal → Bool
  | none => true
  | some (.arr l) => l.isEmpty
  | some (.s st) => st.data.isEmpty
  | some (.q v) => v == 0

namespace MLTrain

/-- The feature columns of train.py's `build_features` (lines 46-61), read at
row `i`.  Each `let` mirrors one column assignment of the source. -/
def featValsAt (sqrt : ℚ → ℚ) (df : List Bar) (i : ℕ) : FeatVals :=
  let closeCol := closeSeries df
  let ret_1d := pctChange closeCol
  let ma_5 := rollingMean 5 closeCol
  let ma_10 := rollingMean 10 closeCol
  let close_over_ma5 := subConstSeries (divSeries closeCol ma_5) 1
  let close_over_ma10 := subConstSeries (divSeries closeCol ma_10) 1
  let vol_5 := rollingStd sqrt 5 ret_1d
  let vol_10 := rollingStd sqrt 10 ret_1d
  let volchg_1d := pctChange (volumeSeries df)
  { ret_1d := ret_1d.getD i none
    ma_5 := ma_5.getD i none
    ma_10 := ma_10.getD i none
    close_over_ma5 := close_over_ma5.getD i none
    close_over_ma10 := close_over_ma10.getD i none
    vol_5 := vol_5.getD i none
    vol_10 := vol_10.getD i none
    volchg_1d := volchg_1d.getD i none }

/-- One row of the training frame after `build_features`: the original bar
columns, the engineered features and the label. -/
structure TrainRow where
  bar : Bar
  feat : FeatVals
  target_up_tomorrow : ℤ
deriving DecidableEq

/-- Row `i` of the training frame before `dropna`. -/
def mkRow (sqrt : ℚ → ℚ) (df : List Bar) (i : ℕ) : TrainRow :=
  { bar := df.getD i ⟨0, 0, 0⟩
    feat := featValsAt sqrt df i
    target_up_tomorrow := (targetSeries df).getD i 0 }

/-- train.py `build_features` (lines 38-68): add the engineered columns and
the target to a copy of the frame, then `dropna` (which can only trigger on
the engineered feature columns, since `day`/`close`/`volume` are non-null and
the target is an `int` column). -/
def build_features (sqrt : ℚ → ℚ) (df : List Bar) : List TrainRow :=
  ((List.range df.length).map (mkRow sqrt df)).filter
    (fun r => featComplete r.feat)

/-- train.py lines 136-143: the schema passed to the trainer and stored in
the metadata record. -/
def feature_cols : List String :=
  ["ret_1d", "close_over_ma5", "close_over_ma10", "vol_5", "vol_10",
   "volchg_1d"]

/-- sklearn `TimeSeriesSplit(n_splits).split` on `n_samples` rows with the
default `test_size`/`gap`: `none` models the `ValueError` raised when there
are fewer than `n_splits + 1` samples; otherwise fold `k` trains on the
prefix `[0, test_start_k)` and tests on `[test_start_k, test_start_k +
test_size)`. -/
def tssSplit (n_splits n_samples : ℕ) : Option (List (List ℕ × List ℕ)) :=
  if n_samples < n_splits + 1 then none
  else
    let test_size := n_samples / (n_splits + 1)
    some ((List.range n_splits).map fun k =>
      let test_start := n_samples - n_splits * test_size + k * test_size
      (List.range test_start, List.range' test_start test_size))

/-- train.py `train_timeseries_model` (lines 71-92), restricted to the part
the claims are about: the cross-validation folds its `TimeSeriesSplit(5)`
produces over the rows of the labeled feature frame.  `none` models the
`ValueError` the split raises when the frame is too short. -/
def train_timeseries_splits (df_feat : List TrainRow) :
    Option (List (List ℕ × List ℕ)) :=
  tssSplit 5 df_feat.length

/-- Python `str.upper()` (codepointwise; the symbols in play are ASCII). -/
def pyUpper (s : String) : String := ⟨s.data.map Char.toUpper⟩

/-- train.py lines 163-171: the metadata record written next to the model
file.  The schema is stored under the key `feature_cols`. -/
def savedMeta (symbol from_date to_date : String) (cols : List String)
    (cv_accuracy_mean cv_accuracy_std : ℚ) : List (String × MetaVal) :=
  [("symbol", .s (pyUpper symbol)),
   ("from", .s from_date),
   ("to", .s to_date),
   ("feature_cols", .arr cols),
   ("cv_accuracy_mean", .q cv_accuracy_mean),
   ("cv_accuracy_std", .q cv_accuracy_std),
   ("notes", .s "Predicts whether tomorrow close > today close using engineered OHLCV features. Trained via time-series CV.")]

end MLTrain

namespace MLServe

/-- serve.py lines 182-183: re-parse the `day` column (identity here, days
are already dates) and `sort_values("day")` with `reset_index`. -/
def sort_values_day (df : List Bar) : List Bar :=
  df.mergeSort (fun a b => decide (a.day ≤ b.day))

/-- The feature columns of serve.py's `engineer_features` (lines 186-197),
read at row `i`; the source duplicates train.py's column stack verbatim. -/
def featValsAt (sqrt : ℚ → ℚ) (df : List Bar) (i : ℕ) : FeatVals :=
  let closeCol := closeSeries df
  let ret_1d := pctChange closeCol
  let ma_5 := rollingMean 5 closeCol
  let ma_10 := rollingMean 10 closeCol
  let close_over_ma5 := subConstSeries (divSeries closeCol ma_5) 1
  let close_over_ma10 := subConstSeries (divSeries closeCol ma_10) 1
  let vol_5 := rollingStd sqrt 5 ret_1d
  let vol_10 := rollingStd sqrt 10 ret_1d
  let volchg_1d := pctChange (volumeSeries df)
  { ret_1d := ret_1d.getD i none
    ma_5 := ma_5.getD i none
    ma_10 := ma_10.getD i none
    close_over_ma5 := close_over_ma5.getD i none
    close_over_ma10 := close_over_ma10.getD i none
    vol_5 := vol_5.getD i none
    vol_10 := vol_10.getD i none
    volchg_1d := volchg_1d.getD i none }

/-- One row of the inference feature frame: the original bar columns plus the
engineered features (no label at inference time). -/
structure ServeRow where
  bar : Bar
  feat : FeatVals
deriving DecidableEq

/-- Row `i` of the inference frame before `dropna`. -/
def mkRow (sqrt : ℚ → ℚ) (df : List Bar) (i : ℕ) : ServeRow :=
  { bar := df.getD i ⟨0, 0, 0⟩
    feat := featValsAt sqrt df i }

/-- serve.py `engineer_features` (lines 172-201): copy, normalize and sort by
day, add the engineered columns, then `dropna`. -/
def engineer_features (sqrt : ℚ → ℚ) (df : List Bar) : List ServeRow :=
  let out := sort_values_day df
  ((List.range out.length).map (mkRow sqrt out)).filter
    (fun r => featComplete r.feat)

/-- serve.py line 258: `if len(df_feat) < 1: raise HTTPException(400, ...)`,
the insufficient-data gate of `/predict`. -/
def predictDataCheck (df_feat : List ServeRow) : Except String Unit :=
  if df_feat.length < 1 then
    .error "Not enough bars after feature engineering (too short range)."
  else .ok ()

/-- Metadata dictionary lookup, Python `meta.get(key)`. -/
def metaGet (meta : List (String × MetaVal)) (k : String) : Option MetaVal :=
  (meta.find? (fun p => p.1 == k)).map (fun p => p.2)

/-- serve.py lines 248-253: `feature_cols = meta.get("feature_columns")`
followed by a falsiness check that raises `Meta JSON missing
feature_columns`.  A truthy value is used as the schema list downstream. -/
def predict_feature_cols (meta : List (String × MetaVal)) :
    Except String (List String) :=
  let fc := metaGet meta "feature_columns"
  if pyFalsy fc then
    .error "Meta JSON missing feature_columns. Update train.py to store feature_columns in meta."
  else
    match fc with
    | some (.arr cols) => .ok cols
    | _ => .ok []

end MLServe

/-- Lexicographic order on codepoint lists, as Python compares strings. -/
def charListLe : List Char → List Char → Bool
  | [], _ => true
  | _ :: _, [] => false
  | a :: as, b :: bs =>
      if a < b then true
      else if b < a then false
      else charListLe as bs

/-- Python string `<=` (lexicographic by codepoint), used by `sorted`. -/
def pyStrLe (a b : String) : Bool := charListLe a.data b.data

/-- Does `s` start with `p` (on codepoints)? -/
def strStartsWith (s p : String) : Bool := s.data.take p.data.length == p.data

/-- Does `s` end with `p` (on codepoints)? -/
def strEndsWith (s p : String) : Bool :=
  s.data.drop (s.data.length - p.data.length) == p.data
  && p.data.length ≤ s.data.length

namespace MLServe

/-- serve.py line 134: does a filename match the glob pattern
`{SYMBOL}_*_logreg.joblib` (`*` matches any, possibly empty, run of
characters)? -/
def globMatches (symbol f : String) : Bool :=
  strStartsWith f (MLTrain.pyUpper symbol ++ "_")
  && strEndsWith f "_logreg.joblib"
  && (MLTrain.pyUpper symbol ++ "_").data.length
      + ("_logreg.joblib" : String).data.length ≤ f.data.length

/-- serve.py `latest_model_for_symbol` (lines 133-138) over an explicit file
store: `sorted(glob.glob(pattern))[-1]`, or `FileNotFoundError` when nothing
matches. -/
def latest_model_for_symbol (symbol : String) (files : List String) :
    Except String String :=
  match ((files.filter (globMatches symbol)).mergeSort pyStrLe).getLast? with
  | none => .error ("No model found for " ++ symbol)
  | some m => .ok m

/-- serve.py line 240: `model_path = req.model_path or
latest_model_for_symbol(symbol)` — a `None` (or empty, hence falsy) request
path falls back to the latest-artifact lookup. -/
def resolveModelPath (req_model_path : Option String) (symbol : String)
    (files : List String) : Except String String :=
  match req_model_path with
  | some p => if p.data.isEmpty then latest_model_for_symbol symbol files
              else .ok p
  | none => latest_model_for_symbol symbol files

/-- An engineered feature frame as `pick_latest_row_features` sees it: a
column list and row-major numeric data (the `day` column is carried as a
number too).  A well-formed frame has one value per column in each row. -/
structure DFrame where
  cols : List String
  rows : List (List ℚ)
deriving DecidableEq

/-- serve.py line 205: `[c for c in feature_cols if c not in
df_feat.columns]`. -/
def missingFeatureCols (df : DFrame) (feature_cols : List String) :
    List String :=
  feature_cols.filter (fun c => !(df.cols.contains c))

/-- Value of column `c` in one row (`last[c]`; the caller has checked that
`c` is among the columns). -/
def cellVal (cols : List String) (row : List ℚ) (c : String) : ℚ :=
  match cols.indexOf? c with
  | some i => row.getD i 0
  | none => 0

/-- The `as_of` date of a row: the `day` cell if the frame has a `day`
column, otherwise the placeholder (`"latest"` in the source, `none` here). -/
def asOfVal (cols : List String) (row : List ℚ) : Option ℚ :=
  if cols.contains "day" then some (cellVal cols row "day") else none

/-- Errors of `pick_latest_row_features`: the schema-mismatch
`HTTPException` naming the missing columns, or the `IndexError` `iloc[-1]`
would raise on an empty frame. -/
inductive PickErr where
  | schemaMismatch (missing : List String)
  | indexOutOfRange
deriving DecidableEq

/-- serve.py `pick_latest_row_features` (lines 204-219): fail when any schema
column is missing from the engineered frame, otherwise read the most recent
row (`iloc[-1]`) and return its as-of date plus its features in schema
order. -/
def pick_latest_row_features (df_feat : DFrame)
    (feature_cols : List String) : Except PickErr (Option ℚ × List ℚ) :=
  let missing := missingFeatureCols df_feat feature_cols
  if missing.isEmpty then
    match df_feat.rows.getLast? with
    | none => .error .indexOutOfRange
    | some last =>
        .ok (asOfVal df_feat.cols last,
             feature_cols.map (cellVal df_feat.cols last))
  else .error (.schemaMismatch missing)

end MLServe

/-!
Heap semantics for the frame-effect claim: Python DataFrames are objects on
a heap, local variables are references (heap indices).  `df.copy()`
allocates a fresh object; `out[col] = series` mutates the object `out`
points to; `out = out.dropna()...` allocates again and rebinds `out`.  The
theorem of interest is that the object the caller's `df` points to is
untouched.
-/

/-- A DataFrame object: named columns in insertion order. -/
abbrev DFObj : Type := List (String × Series)

/-- Read a column of a DataFrame object (`out["c"]`). -/
def getColObj (d : DFObj) (c : String) : Series :=
  ((d.find? (fun p => p.1 == c)).map (fun p => p.2)).getD []

/-- Write a column of a DataFrame object (`out["c"] = v`): overwrite in place
if present, else append a new column. -/
def setColObj (d : DFObj) (c : String) (v : Series) : DFObj :=
  if d.any (fun p => p.1 == c) then
    d.map (fun p => if p.1 == c then (c, v) else p)
  else d ++ [(c, v)]

/-- Number of rows of a DataFrame object (the length of its columns). -/
def nRowsObj (d : DFObj) : ℕ :=
  match d with
  | [] => 0
  | p :: _ => p.2.length

/-- Does `dropna` keep row `i`: no column may be NaN there. -/
def keepRowObj (d : DFObj) (i : ℕ) : Bool :=
  d.all (fun p => (p.2.getD i none).isSome)

/-- pandas `dropna().reset_index(drop=True)` on a DataFrame object: a new
object holding only the complete rows. -/
def dropnaObj (d : DFObj) : DFObj :=
  d.map (fun p =>
    (p.1, ((List.range (nRowsObj d)).filter (keepRowObj d)).map
      (fun i => p.2.getD i none)))

/-- pandas `sort_values("day")` as a new object: rows reindexed by ascending
`day` (missing days last, as with `na_position="last"`). -/
def sortObjByDay (d : DFObj) : DFObj :=
  let dayCol := getColObj d "day"
  let le : ℕ → ℕ → Bool := fun i j =>
    match dayCol.getD i none, dayCol.getD j none with
    | some x, some y => decide (x ≤ y)
    | some _, none => true
    | none, _ => false
  let ord := (List.range (nRowsObj d)).mergeSort le
  d.map (fun p => (p.1, ord.map (fun i => p.2.getD i none)))

/-- The integer 0/1 target as a (never-NaN) column. -/
def gtIntColObj (xs ys : Series) : Series :=
  (seriesGtToInt xs ys).map (fun z => some (z : ℚ))

/-- Mutate the object that reference `r` points to by writing column `c`. -/
def writeCol (h : List DFObj) (r : ℕ) (c : String) (v : Series) :
    List DFObj :=
  h.set r (setColObj (h.getD r []) c v)

namespace MLTrain

/-- train.py `build_features` (lines 38-68) under heap semantics: returns the
final heap and the reference the function's `out` holds at `return`. -/
def build_features_prog (sqrt : ℚ → ℚ) (h0 : List DFObj) (df : ℕ) :
    List DFObj × ℕ :=
  -- out = df.copy()
  let out := h0.length
  let h1 := h0 ++ [h0.getD df []]
  -- out["ret_1d"] = out["close"].pct_change()
  let h2 := writeCol h1 out "ret_1d"
    (pctChange (getColObj (h1.getD out []) "close"))
  -- out["ma_5"] = out["close"].rolling(5).mean()
  let h3 := writeCol h2 out "ma_5"
    (rollingMean 5 (getColObj (h2.getD out []) "close"))
  -- out["ma_10"] = out["close"].rolling(10).mean()
  let h4 := writeCol h3 out "ma_10"
    (rollingMean 10 (getColObj (h3.getD out []) "close"))
  -- out["close_over_ma5"] = out["close"] / out["ma_5"] - 1.0
  let h5 := writeCol h4 out "close_over_ma5"
    (subConstSeries (divSeries (getColObj (h4.getD out []) "close")
      (getColObj (h4.getD out []) "ma_5")) 1)
  -- out["close_over_ma10"] = out["close"] / out["ma_10"] - 1.0
  let h6 := writeCol h5 out "close_over_ma10"
    (subConstSeries (divSeries (getColObj (h5.getD out []) "close")
      (getColObj (h5.getD out []) "ma_10")) 1)
  -- out["vol_5"] = out["ret_1d"].rolling(5).std()
  let h7 := writeCol h6 out "vol_5"
    (rollingStd sqrt 5 (getColObj (h6.getD out []) "ret_1d"))
  -- out["vol_10"] = out["ret_1d"].rolling(10).std()
  let h8 := writeCol h7 out "vol_10"
    (rollingStd sqrt 10 (getColObj (h7.getD out []) "ret_1d"))
  -- out["volchg_1d"] = out["volume"].pct_change()
  let h9 := writeCol h8 out "volchg_1d"
    (pctChange (getColObj (h8.getD out []) "volume"))
  -- out["target_up_tomorrow"] = (out["close"].shift(-1) > out["close"]).astype(int)
  let h10 := writeCol h9 out "target_up_tomorrow"
    (gtIntColObj (shiftMinus1 (getColObj (h9.getD out []) "close"))
      (getColObj (h9.getD out []) "close"))
  -- out = out.dropna().reset_index(drop=True)
  let h11 := h10 ++ [dropnaObj (h10.getD out [])]
  (h11, h10.length)

end MLTrain

namespace MLServe

/-- serve.py `engineer_features` (lines 172-201) under heap semantics:
returns the final heap and the reference `out` holds at `return`. -/
def engineer_features_prog (sqrt : ℚ → ℚ) (h0 : List DFObj) (df : ℕ) :
    List DFObj × ℕ :=
  -- out = df.copy()
  let out0 := h0.length
  let h1 := h0 ++ [h0.getD df []]
  -- out["day"] = pd.to_datetime(out["day"])  (identity: days are dates)
  let h2 := writeCol h1 out0 "day" (getColObj (h1.getD out0 []) "day")
  -- out = out.sort_values("day").reset_index(drop=True)  (new object)
  let out := h2.length
  let h3 := h2 ++ [sortObjByDay (h2.getD out0 [])]
  -- out["ret_1d"] = out["close"].pct_change()
  let h4 := writeCol h3 out "ret_1d"
    (pctChange (getColObj (h3.getD out []) "close"))
  -- out["ma_5"] = out["close"].rolling(5).mean()
  let h5 := writeCol h4 out "ma_5"
    (rollingMean 5 (getColObj (h4.getD out []) "close"))
  -- out["ma_10"] = out["close"].rolling(10).mean()
  let h6 := writeCol h5 out "ma_10"
    (rollingMean 10 (getColObj (h5.getD out []) "close"))
  -- out["close_over_ma5"] = out["close"] / out["ma_5"] - 1.0
  let h7 := writeCol h6 out "close_over_ma5"
    (subConstSeries (divSeries (getColObj (h6.getD out []) "close")
      (getColObj (h6.getD out []) "ma_5")) 1)
  -- out["close_over_ma10"] = out["close"] / out["ma_10"] - 1.0
  let h8 := writeCol h7 out "close_over_ma10"
    (subConstSeries (divSeries (getColObj (h7.getD out []) "close")
      (getColObj (h7.getD out []) "ma_10")) 1)
  -- out["vol_5"] = out["ret_1d"].rolling(5).std()
  let h9 := writeCol h8 out "vol_5"
    (rollingStd sqrt 5 (getColObj (h8.getD out []) "ret_1d"))
  -- out["vol_10"] = out["ret_1d"].rolling(10).std()
  let h10 := writeCol h9 out "vol_10"
    (rollingStd sqrt 10 (getColObj (h9.getD out []) "ret_1d"))
  -- out["volchg_1d"] = out["volume"].pct_change()
  let h11 := writeCol h10 out "volchg_1d"
    (pctChange (getColObj (h10.getD out []) "volume"))
  -- out = out.dropna().reset_index(drop=True)  (new object)
  let h12 := h11 ++ [dropnaObj (h11.getD out [])]
  (h12, h11.length)

end MLServe

/-! Index lemmas for the column operations. -/

theorem getD_map_range {α : Type} (f : ℕ → α) (d : α) (n i : ℕ) :
    ((List.range n).map f).getD i d = if i < n then f i else d := by
  by_cases h : i < n
  · rw [List.getD_eq_getElem?_getD, List.getElem?_map, List.getElem?_range h]
    simp [h]
  · rw [List.getD_eq_getElem?_getD,
      List.getElem?_eq_none (by simpa using not_lt.mp h)]
    simp [h]

theorem getD_map {α β : Type} (g : α → β) (l : List α) (i : ℕ)
    (hi : i < l.length) (dA : α) (dB : β) :
    (l.map g).getD i dB = g (l.getD i dA) := by
  rw [List.getD_eq_getElem _ _ (by simpa using hi), List.getD_eq_getElem _ _ hi,
    List.getElem_map]

theorem getD_zipWith {α β γ : Type} (f : α → β → γ) (xs : List α)
    (ys : List β) (dA : α) (dB : β) (dC : γ) (i : ℕ)
    (hx : i < xs.length) (hy : i < ys.length) :
    (List.zipWith f xs ys).getD i dC = f (xs.getD i dA) (ys.getD i dB) := by
  rw [List.getD_eq_getElem?_getD, List.getElem?_zipWith,
    List.getElem?_eq_getElem hx, List.getElem?_eq_getElem hy,
    List.getD_eq_getElem _ _ hx, List.getD_eq_getElem _ _ hy]
  rfl

theorem getD_mem {α : Type} (l : List α) (i : ℕ) (d : α)
    (hi : i < l.length) : l.getD i d ∈ l := by
  rw [List.getD_eq_getElem _ _ hi]
  exact List.getElem_mem hi

theorem isSome_opt_map {α β : Type} (f : α → β) (x : Option α) :
    (x.map f).isSome = x.isSome := by
  cases x <;> rfl

theorem allSome_isSome_iff (l : Series) :
    (allSome l).isSome = true ↔ ∀ x ∈ l, x.isSome = true := by
  induction l with
  | nil => simp [allSome]
  | cons a as ih =>
      cases a with
      | none => simp [allSome]
      | some x =>
          rw [allSome]
          simp only [List.mem_cons]
          constructor
          · intro h y hy
            rcases hy with rfl | hy
            · rfl
            · exact (ih.mp (by rw [← isSome_opt_map (fun l => x :: l)]; exact h)) y hy
          · intro h
            rw [isSome_opt_map]
            exact ih.mpr (fun y hy => h y (Or.inr hy))

theorem allSome_eq_none_of_mem {l : Series} (h : none ∈ l) :
    allSome l = none := by
  induction l with
  | nil => simp at h
  | cons a as ih =>
      cases a with
      | none => rfl
      | some x =>
          rw [List.mem_cons] at h
          rcases h with h | h
          · exact absurd h (by simp)
          · rw [allSome, ih h]
            rfl

theorem window_getD (xs : Series) (a k m : ℕ) (hm : m < k)
    (hlen : a + m < xs.length) :
    ((xs.drop a).take k).getD m none = xs.getD (a + m) none := by
  have h1 : m < ((xs.drop a).take k).length := by
    rw [List.length_take, List.length_drop]
    omega
  rw [List.getD_eq_getElem _ _ h1, List.getElem_take, List.getElem_drop,
    List.getD_eq_getElem _ _ hlen]

theorem mem_window {xs : Series} {a k : ℕ} {x : Option ℚ}
    (hx : x ∈ (xs.drop a).take k) :
    ∃ j, a ≤ j ∧ j < a + k ∧ j < xs.length ∧ xs.getD j none = x := by
  rw [List.mem_iff_getElem] at hx
  obtain ⟨m, hm, he⟩ := hx
  rw [List.length_take, List.length_drop] at hm
  refine ⟨a + m, by omega, by omega, by omega, ?_⟩
  rw [List.getD_eq_getElem _ _ (by omega : a + m < xs.length)]
  rw [List.getElem_take, List.getElem_drop] at he
  exact he

/-! NaN patterns of the engineered columns.  Whether an entry is defined
depends only on its position, never on the numeric values. -/

theorem length_pctChange (xs : Series) : (pctChange xs).length = xs.length := by
  simp [pctChange]

theorem length_rollingApply (k : ℕ) (f : List ℚ → ℚ) (xs : Series) :
    (rollingApply k f xs).length = xs.length := by
  simp [rollingApply]

theorem length_closeSeries (df : List Bar) :
    (closeSeries df).length = df.length := by
  simp [closeSeries]

theorem length_volumeSeries (df : List Bar) :
    (volumeSeries df).length = df.length := by
  simp [volumeSeries]

theorem closeSeries_getD (df : List Bar) (i : ℕ) (hi : i < df.length) :
    (closeSeries df).getD i none = some ((df.getD i ⟨0, 0, 0⟩).close) :=
  getD_map _ df i hi ⟨0, 0, 0⟩ none

theorem volumeSeries_getD (df : List Bar) (i : ℕ) (hi : i < df.length) :
    (volumeSeries df).getD i none = some ((df.getD i ⟨0, 0, 0⟩).volume) :=
  getD_map _ df i hi ⟨0, 0, 0⟩ none

theorem pctChange_getD (xs : Series) (i : ℕ) (hi : i < xs.length) :
    (pctChange xs).getD i none =
      if i = 0 then none
      else
        match xs.getD i none, xs.getD (i - 1) none with
        | some a, some b => some (a / b - 1)
        | _, _ => none := by
  unfold pctChange
  rw [getD_map_range, if_pos hi]

theorem pctChange_isSome_iff (xs : Series)
    (hall : ∀ x ∈ xs, x.isSome = true) (i : ℕ) (hi : i < xs.length) :
    ((pctChange xs).getD i none).isSome = true ↔ 1 ≤ i := by
  rw [pctChange_getD xs i hi]
  rcases Nat.eq_zero_or_pos i with rfl | hpos
  · simp
  · rw [if_neg (by omega)]
    obtain ⟨a, ha⟩ := Option.isSome_iff_exists.mp
      (hall _ (getD_mem xs i none hi))
    obtain ⟨b, hb⟩ := Option.isSome_iff_exists.mp
      (hall _ (getD_mem xs (i - 1) none (by omega)))
    rw [ha, hb]
    simpa using hpos

theorem rollingApply_getD (k : ℕ) (f : List ℚ → ℚ) (xs : Series) (i : ℕ)
    (hi : i < xs.length) :
    (rollingApply k f xs).getD i none =
      if i + 1 < k then none
      else (allSome ((xs.drop (i + 1 - k)).take k)).map f := by
  unfold rollingApply
  rw [getD_map_range, if_pos hi]

theorem rollingApply_isSome (k : ℕ) (f : List ℚ → ℚ) (xs : Series) (i : ℕ)
    (hi : i < xs.length) (hk : k ≤ i + 1)
    (hwin : ∀ j, i + 1 - k ≤ j → j < xs.length →
      (xs.getD j none).isSome = true) :
    ((rollingApply k f xs).getD i none).isSome = true := by
  rw [rollingApply_getD k f xs i hi, if_neg (by omega), isSome_opt_map,
    allSome_isSome_iff]
  intro x hx
  obtain ⟨j, hj1, _, hj3, hj4⟩ := mem_window hx
  rw [← hj4]
  exact hwin j (by omega) hj3

theorem rollingApply_none_short (k : ℕ) (f : List ℚ → ℚ) (xs : Series)
    (i : ℕ) (hi : i < xs.length) (h : i + 1 < k) :
    (rollingApply k f xs).getD i none = none := by
  rw [rollingApply_getD k f xs i hi, if_pos h]

theorem rollingApply_none_of_none (k : ℕ) (f : List ℚ → ℚ) (xs : Series)
    (i : ℕ) (hi : i < xs.length) (hk : k ≤ i + 1) (j : ℕ)
    (hj1 : i + 1 - k ≤ j) (hj2 : j ≤ i) (hnone : xs.getD j none = none) :
    (rollingApply k f xs).getD i none = none := by
  rw [rollingApply_getD k f xs i hi, if_neg (by omega)]
  rw [allSome_eq_none_of_mem]
  · rfl
  · have hwd : ((xs.drop (i + 1 - k)).take k).getD (j - (i + 1 - k)) none
        = none := by
      rw [window_getD xs (i + 1 - k) k (j - (i + 1 - k)) (by omega)
        (by omega)]
      rw [show i + 1 - k + (j - (i + 1 - k)) = j from by omega, hnone]
    rw [← hwd]
    apply getD_mem
    rw [List.length_take, List.length_drop]
    omega

theorem subConstSeries_getD (xs : Series) (c : ℚ) (i : ℕ) :
    (subConstSeries xs c).getD i none =
      (xs.getD i none).map (fun x => x - c) := by
  by_cases hi : i < xs.length
  · exact getD_map _ xs i hi none none
  · rw [List.getD_eq_getElem?_getD,
      List.getElem?_eq_none (by simpa [subConstSeries] using not_lt.mp hi),
      List.getD_eq_getElem?_getD, List.getElem?_eq_none (not_lt.mp hi)]
    rfl

theorem divSeries_getD (xs ys : Series) (i : ℕ) (hx : i < xs.length)
    (hy : i < ys.length) :
    (divSeries xs ys).getD i none =
      match xs.getD i none, ys.getD i none with
      | some a, some b => some (a / b)
      | _, _ => none :=
  getD_zipWith _ xs ys none none none i hx hy

theorem closeSeries_all_isSome (df : List Bar) :
    ∀ x ∈ closeSeries df, x.isSome = true := by
  intro x hx
  rw [closeSeries, List.mem_map] at hx
  obtain ⟨b, _, rfl⟩ := hx
  rfl

theorem volumeSeries_all_isSome (df : List Bar) :
    ∀ x ∈ volumeSeries df, x.isSome = true := by
  intro x hx
  rw [volumeSeries, List.mem_map] at hx
  obtain ⟨b, _, rfl⟩ := hx
  rfl

theorem ret1d_isSome_iff (df : List Bar) (i : ℕ) (hi : i < df.length) :
    ((pctChange (closeSeries df)).getD i none).isSome = true ↔ 1 ≤ i :=
  pctChange_isSome_iff (closeSeries df) (closeSeries_all_isSome df) i
    (by rw [length_closeSeries]; exact hi)

theorem volchg_isSome_iff (df : List Bar) (i : ℕ) (hi : i < df.length) :
    ((pctChange (volumeSeries df)).getD i none).isSome = true ↔ 1 ≤ i :=
  pctChange_isSome_iff (volumeSeries df) (volumeSeries_all_isSome df) i
    (by rw [length_volumeSeries]; exact hi)

theorem rollingMean_close_isSome_iff (k : ℕ) (df : List Bar) (i : ℕ)
    (hi : i < df.length) :
    ((rollingMean k (closeSeries df)).getD i none).isSome = true ↔
      k ≤ i + 1 := by
  have hlen : i < (closeSeries df).length := by
    rw [length_closeSeries]; exact hi
  constructor
  · intro h
    by_contra hc
    rw [rollingMean, rollingApply_none_short k _ _ i hlen (by omega)] at h
    exact absurd h (by simp)
  · intro h
    exact rollingApply_isSome k _ _ i hlen h
      (fun j _ hj => closeSeries_all_isSome df _ (getD_mem _ j none hj))

theorem rollingStd_ret_isSome_iff (sqrt : ℚ → ℚ) (k : ℕ) (hk : 0 < k)
    (df : List Bar) (i : ℕ) (hi : i < df.length) :
    ((rollingStd sqrt k (pctChange (closeSeries df))).getD i none).isSome
      = true ↔ k ≤ i := by
  have hlen : (pctChange (closeSeries df)).length = df.length := by
    rw [length_pctChange, length_closeSeries]
  have hlen' : i < (pctChange (closeSeries df)).length := by
    rw [hlen]; exact hi
  constructor
  · intro h
    by_contra hc
    push_neg at hc
    rcases lt_or_ge (i + 1) k with hshort | hfull
    · rw [rollingStd,
        rollingApply_none_short k _ _ i hlen' hshort] at h
      exact absurd h (by simp)
    · -- here i + 1 = k, so the window reaches back to index 0, which is NaN
      have hc0 : 0 < (closeSeries df).length := by
        rw [length_closeSeries]; omega
      have h0 : ((pctChange (closeSeries df)).getD 0 none) = none := by
        rw [pctChange_getD _ 0 hc0, if_pos rfl]
      rw [rollingStd, rollingApply_none_of_none k _ _ i hlen' hfull 0
        (by omega) (by omega) h0] at h
      exact absurd h (by simp)
  · intro h
    rw [rollingStd]
    refine rollingApply_isSome k _ _ i hlen' (by omega) ?_
    intro j hj hjlen
    rw [hlen] at hjlen
    exact (ret1d_isSome_iff df j hjlen).mpr (by omega)

theorem close_over_ma_isSome_iff (k : ℕ) (df : List Bar) (i : ℕ)
    (hi : i < df.length) :
    (((subConstSeries (divSeries (closeSeries df)
        (rollingMean k (closeSeries df))) 1).getD i none).isSome = true) ↔
      k ≤ i + 1 := by
  rw [subConstSeries_getD, isSome_opt_map]
  rw [divSeries_getD _ _ i (by rw [length_closeSeries]; exact hi)
    (by rw [rollingMean, length_rollingApply, length_closeSeries]; exact hi)]
  rw [closeSeries_getD df i hi]
  rw [← rollingMean_close_isSome_iff k df i hi]
  rcases hma : (rollingMean k (closeSeries df)).getD i none with _ | v
  · simp
  · simp

/-- The two copy-pasted feature stacks are one and the same function. -/
theorem serve_featValsAt_eq : MLServe.featValsAt = MLTrain.featValsAt := rfl

/-- A row of the feature frame survives `dropna` exactly when its index is at
least 10, independently of the bar values: `ret_1d`/`volchg_1d` need index
≥ 1, `ma_5`/`close_over_ma5` ≥ 4, `ma_10`/`close_over_ma10` ≥ 9, `vol_5` ≥ 5
and `vol_10` ≥ 10. -/
theorem featComplete_featValsAt (sqrt : ℚ → ℚ) (df : List Bar) (i : ℕ)
    (hi : i < df.length) :
    featComplete (MLTrain.featValsAt sqrt df i) = true ↔ 10 ≤ i := by
  unfold MLTrain.featValsAt featComplete
  simp only [Bool.and_eq_true]
  rw [ret1d_isSome_iff df i hi, volchg_isSome_iff df i hi,
    rollingMean_close_isSome_iff 5 df i hi,
    rollingMean_close_isSome_iff 10 df i hi,
    close_over_ma_isSome_iff 5 df i hi, close_over_ma_isSome_iff 10 df i hi,
    rollingStd_ret_isSome_iff sqrt 5 (by omega) df i hi,
    rollingStd_ret_isSome_iff sqrt 10 (by omega) df i hi]
  omega

/-- train.py `build_features` keeps exactly the rows with index ≥ 10. -/
theorem build_features_eq_filterTen (sqrt : ℚ → ℚ) (df : List Bar) :
    MLTrain.build_features sqrt df =
      ((List.range df.length).filter (fun i => decide (10 ≤ i))).map
        (MLTrain.mkRow sqrt df) := by
  unfold MLTrain.build_features
  rw [List.filter_map]
  congr 1
  apply List.filter_congr
  intro i hii
  rw [List.mem_range] at hii
  show featComplete (MLTrain.mkRow sqrt df i).feat = decide (10 ≤ i)
  rw [Bool.eq_iff_iff]
  simp only [decide_eq_true_eq]
  exact featComplete_featValsAt sqrt df i hii

/-- serve.py `engineer_features` keeps exactly the rows with index ≥ 10 of
the day-sorted frame. -/
theorem engineer_features_eq_filterTen (sqrt : ℚ → ℚ) (df : List Bar) :
    MLServe.engineer_features sqrt df =
      ((List.range (MLServe.sort_values_day df).length).filter
        (fun i => decide (10 ≤ i))).map
        (MLServe.mkRow sqrt (MLServe.sort_values_day df)) := by
  unfold MLServe.engineer_features
  rw [List.filter_map]
  congr 1
  apply List.filter_congr
  intro i hii
  rw [List.mem_range] at hii
  show featComplete (MLServe.mkRow sqrt (MLServe.sort_values_day df) i).feat
    = decide (10 ≤ i)
  rw [Bool.eq_iff_iff]
  simp only [decide_eq_true_eq]
  show featComplete
    (MLServe.featValsAt sqrt (MLServe.sort_values_day df) i) = true ↔ 10 ≤ i
  rw [serve_featValsAt_eq]
  exact featComplete_featValsAt sqrt (MLServe.sort_values_day df) i hii

theorem length_filterTen (n : ℕ) :
    ((List.range n).filter (fun i => decide (10 ≤ i))).length = n - 10 := by
  induction n with
  | zero => rfl
  | succ m ih =>
      rw [List.range_succ, List.filter_append, List.length_append, ih]
      by_cases h : 10 ≤ m
      · simp only [List.filter_cons, List.filter_nil, decide_eq_true h,
          if_pos]
        rw [List.length_singleton]
        omega
      · simp only [List.filter_cons, List.filter_nil]
        rw [if_neg (by simpa using h)]
        simp only [List.length_nil]
        omega

/-- The training frame after `dropna` has exactly `n - 10` rows: the final,
unlabeled row is not dropped, because `astype(int)` has already replaced its
would-be-NaN target by 0. -/
theorem length_build_features (sqrt : ℚ → ℚ) (df : List Bar) :
    (MLTrain.build_features sqrt df).length = df.length - 10 := by
  rw [build_features_eq_filterTen, List.length_map, length_filterTen]

/-- The inference frame after `dropna` has exactly `n - 10` rows. -/
theorem length_engineer_features (sqrt : ℚ → ℚ) (df : List Bar) :
    (MLServe.engineer_features sqrt df).length = df.length - 10 := by
  rw [engineer_features_eq_filterTen, List.length_map, length_filterTen,
    MLServe.sort_values_day, List.length_mergeSort]

/-- The final row's target label is always 0: its shifted close is NaN, the
NaN comparison is `False`, and `astype(int)` maps that to 0. -/
theorem targetSeries_getD_last (df : List Bar) (h : 0 < df.length) :
    (targetSeries df).getD (df.length - 1) 0 = 0 := by
  unfold targetSeries
  have hs : (shiftMinus1 (closeSeries df)).length = df.length := by
    simp [shiftMinus1, closeSeries]
  have hc : (closeSeries df).length = df.length := length_closeSeries df
  rw [seriesGtToInt, getD_zipWith _ _ _ none none 0 (df.length - 1)
    (by omega) (by omega)]
  have hsh : (shiftMinus1 (closeSeries df)).getD (df.length - 1) none
      = none := by
    unfold shiftMinus1
    rw [getD_map_range, if_pos (by omega), List.getD_eq_getElem?_getD,
      List.getElem?_eq_none (by omega)]
    rfl
  rw [hsh]

/-! Order facts about the lexicographic string order used by `sorted`. -/

theorem charListLe_refl (l : List Char) : charListLe l l = true := by
  induction l with
  | nil => rfl
  | cons a as ih =>
      unfold charListLe
      rw [if_neg (lt_irrefl a), if_neg (lt_irrefl a)]
      exact ih

theorem charListLe_total (a b : List Char) :
    (charListLe a b || charListLe b a) = true := by
  induction a generalizing b with
  | nil => rfl
  | cons x xs ih =>
      cases b with
      | nil => rfl
      | cons y ys =>
          unfold charListLe
          rcases lt_trichotomy x y with h | h | h
          · rw [if_pos h]
            rfl
          · subst h
            rw [if_neg (lt_irrefl x), if_neg (lt_irrefl x),
              if_neg (lt_irrefl x), if_neg (lt_irrefl x)]
            exact ih ys
          · rw [if_neg (asymm h), if_pos h, if_pos h]
            rfl

theorem charListLe_trans (a b c : List Char) (hab : charListLe a b = true)
    (hbc : charListLe b c = true) : charListLe a c = true := by
  induction a generalizing b c with
  | nil => rfl
  | cons x xs ih =>
      cases b with
      | nil => exact absurd hab (by simp [charListLe])
      | cons y ys =>
          cases c with
          | nil => exact absurd hbc (by simp [charListLe])
          | cons z zs =>
              unfold charListLe at hab hbc ⊢
              by_cases hxy : x < y
              · rw [if_pos hxy] at hab
                by_cases hyz : y < z
                · rw [if_pos (lt_trans hxy hyz)]
                · by_cases hzy : z < y
                  · rw [if_neg hyz, if_pos hzy] at hbc
                    exact absurd hbc (by simp)
                  · have : y = z := le_antisymm (not_lt.mp hzy) (not_lt.mp hyz)
                    subst this
                    rw [if_pos hxy]
              · by_cases hyx : y < x
                · rw [if_neg hxy, if_pos hyx] at hab
                  exact absurd hab (by simp)
                · have hxey : x = y := le_antisymm (not_lt.mp hyx) (not_lt.mp hxy)
                  subst hxey
                  rw [if_neg hxy, if_neg hxy] at hab
                  by_cases hyz : x < z
                  · rw [if_pos hyz]
                  · by_cases hzy : z < x
                    · rw [if_neg hyz, if_pos hzy] at hbc
                      exact absurd hbc (by simp)
                    · have : x = z := le_antisymm (not_lt.mp hzy) (not_lt.mp hyz)
                      subst this
                      rw [if_neg hxy, if_neg hxy] at hbc ⊢
                      exact ih ys zs hab hbc

theorem pyStrLe_refl (s : String) : pyStrLe s s = true := charListLe_refl _

theorem pyStrLe_total (a b : String) :
    (pyStrLe a b || pyStrLe b a) = true := charListLe_total _ _

theorem pyStrLe_trans (a b c : String) (hab : pyStrLe a b = true)
    (hbc : pyStrLe b c = true) : pyStrLe a c = true :=
  charListLe_trans _ _ _ hab hbc

/-- In a list sorted by a Boolean relation, every element is the last element
or relates to it. -/
theorem pairwise_getLast_max {α : Type} {le : α → α → Bool} {l : List α}
    {b : α} (hp : List.Pairwise (fun x y => le x y = true) l)
    (hb : l.getLast? = some b) :
    ∀ x ∈ l, x = b ∨ le x b = true := by
  induction l with
  | nil => simp at hb
  | cons a as ih =>
      obtain ⟨hrel, hrest⟩ := List.pairwise_cons.mp hp
      cases as with
      | nil =>
          intro x hx
          rcases List.mem_cons.mp hx with rfl | hx2
          · left
            simpa using hb
          · simp at hx2
      | cons a2 as2 =>
          rw [List.getLast?_cons_cons] at hb
          intro x hx
          rcases List.mem_cons.mp hx with rfl | hx2
          · right
            have hbmem : b ∈ a2 :: as2 := by
              obtain ⟨ys, hys⟩ := List.getLast?_eq_some_iff.mp hb
              rw [hys]
              simp
            exact hrel b hbmem
          · exact ih hrest hb x hx2

/-! Frame lemmas for the heap semantics. -/

theorem length_writeCol (h : List DFObj) (r : ℕ) (c : String) (v : Series) :
    (writeCol h r c v).length = h.length := by
  simp [writeCol]

theorem getD_writeCol_ne (h : List DFObj) (r : ℕ) (c : String) (v : Series)
    (j : ℕ) (hne : j ≠ r) :
    (writeCol h r c v).getD j [] = h.getD j [] := by
  unfold writeCol
  rw [List.getD_eq_getElem?_getD, List.getElem?_set_ne (by omega)]
  exact (List.getD_eq_getElem?_getD h j []).symm

theorem getD_append_singleton_lt {α : Type} (l : List α) (x : α) (j : ℕ)
    (d : α) (hj : j < l.length) :
    (l ++ [x]).getD j d = l.getD j d := by
  rw [List.getD_eq_getElem?_getD, List.getD_eq_getElem?_getD,
    List.getElem?_append_left hj]

/-! Concrete inputs used by the witnesses: `n` bars on consecutive days with
strictly increasing closes `1, 2, …, n` and constant volume. -/

/-- Synthetic bar frame: day `i`, close `i + 1`, volume 1. -/
def demoBars (n : ℕ) : List Bar :=
  (List.range n).map (fun i => ⟨i, (i : ℚ) + 1, 1⟩)

theorem length_demoBars (n : ℕ) : (demoBars n).length = n := by
  simp [demoBars]

theorem demoBars_sorted (n : ℕ) :
    List.Sorted (fun a b : Bar => a.day ≤ b.day) (demoBars n) := by
  unfold demoBars
  exact List.Pairwise.map _ (fun a b hab => le_of_lt hab)
    (List.pairwise_lt_range n)

theorem demoBars_strictMono (n : ℕ) :
    ∀ i, i + 1 < n →
      ((demoBars n).getD i ⟨0, 0, 0⟩).close
        < ((demoBars n).getD (i + 1) ⟨0, 0, 0⟩).close := by
  intro i hi
  unfold demoBars
  rw [getD_map_range, getD_map_range, if_pos (by omega), if_pos (by omega)]
  show (i : ℚ) + 1 < ((i + 1 : ℕ) : ℚ) + 1
  push_cast
  linarith

/-! Claim theorems. -/

/-- C1: the schema round-trip through the artifact store FAILS in the code:
train.py stores the ordered schema under the metadata key `feature_cols`
(train.py line 167), but serve.py's `predict` reads the key
`feature_columns` (serve.py line 248).  For every schema the lookup returns
`None` and `predict` raises the `Meta JSON missing feature_columns` error
instead of recovering the schema. -/
theorem schema_roundtrip_key_mismatch (symbol from_date to_date : String)
    (cols : List String) (cvm cvs : ℚ) :
    MLServe.metaGet (MLTrain.savedMeta symbol from_date to_date cols cvm cvs)
        "feature_cols" = some (.arr cols)
    ∧ MLServe.metaGet
        (MLTrain.savedMeta symbol from_date to_date cols cvm cvs)
        "feature_columns" = none
    ∧ MLServe.predict_feature_cols
        (MLTrain.savedMeta symbol from_date to_date cols cvm cvs) =
      .error "Meta JSON missing feature_columns. Update train.py to store feature_columns in meta." :=
  ⟨rfl, rfl, rfl⟩

/-- C5: the cross-validation folds of `train_timeseries_model` are
leakage-free: whenever the 5-fold time-series split accepts the labeled
feature frame, every test-row index of every fold is strictly greater than
every train-row index of that fold. -/
theorem folds_leakage_free (df_feat : List MLTrain.TrainRow)
    (folds : List (List ℕ × List ℕ))
    (h : MLTrain.train_timeseries_splits df_feat = some folds) :
    ∀ fold ∈ folds, ∀ i ∈ fold.2, ∀ j ∈ fold.1, j < i := by
  unfold MLTrain.train_timeseries_splits MLTrain.tssSplit at h
  rw [if_neg] at h
  · simp only [Option.some_inj] at h
    subst h
    intro fold hf
    rw [List.mem_map] at hf
    obtain ⟨k, _, rfl⟩ := hf
    intro i hi j hj
    rw [List.mem_range] at hj
    rw [List.mem_range'_1] at hi
    omega
  · intro hlt
    rw [if_pos hlt] at h
    exact Option.noConfusion h

/-- A placeholder labeled feature row for instantiating the fold claim. -/
def demoTrainRow : MLTrain.TrainRow :=
  ⟨⟨0, 0, 0⟩, ⟨none, none, none, none, none, none, none, none⟩, 0⟩

/-- Twelve labeled feature rows: enough for five non-degenerate folds. -/
def demoFeat12 : List MLTrain.TrainRow := List.replicate 12 demoTrainRow

/-- The folds `TimeSeriesSplit(5)` produces on 12 rows. -/
def demoFolds : List (List ℕ × List ℕ) :=
  [(List.range 2, List.range' 2 2), (List.range 4, List.range' 4 2),
   (List.range 6, List.range' 6 2), (List.range 8, List.range' 8 2),
   (List.range 10, List.range' 10 2)]

/-- Witness for C5 at a concrete 12-row frame. -/
theorem folds_leakage_free_witness :
    MLTrain.train_timeseries_splits demoFeat12 = some demoFolds
    ∧ ∀ fold ∈ demoFolds, ∀ i ∈ fold.2, ∀ j ∈ fold.1, j < i := by
  have h : MLTrain.train_timeseries_splits demoFeat12 = some demoFolds := by
    decide
  exact ⟨h, folds_leakage_free demoFeat12 demoFolds h⟩

/-- C2: on any frame of bars already sorted ascending by day, the training
feature builder and the serving feature builder produce exactly the same
engineered feature columns on the same surviving rows. -/
theorem feature_pipelines_agree (sqrt : ℚ → ℚ) (df : List Bar)
    (hsorted : List.Sorted (fun a b : Bar => a.day ≤ b.day) df) :
    (MLTrain.build_features sqrt df).map (fun r => r.feat) =
      (MLServe.engineer_features sqrt df).map (fun r => r.feat) := by
  have hs : MLServe.sort_values_day df = df := by
    apply List.mergeSort_of_sorted
    exact hsorted.imp (fun hab => by simpa using hab)
  rw [build_features_eq_filterTen, engineer_features_eq_filterTen, hs,
    List.map_map, List.map_map]
  rfl

/-- Witness for C2 at a concrete sorted 11-bar frame. -/
theorem feature_pipelines_agree_witness :
    List.Sorted (fun a b : Bar => a.day ≤ b.day) (demoBars 11)
    ∧ (MLTrain.build_features (fun _ => 0) (demoBars 11)).map
        (fun r => r.feat) =
      (MLServe.engineer_features (fun _ => 0) (demoBars 11)).map
        (fun r => r.feat) :=
  ⟨demoBars_sorted 11,
   feature_pipelines_agree (fun _ => 0) (demoBars 11) (demoBars_sorted 11)⟩

/-- C3 (code behaviour at the failing input): on 12 bars, training-mode
`build_features` keeps 2 rows — `n - 10`, not the `n - 11` the claimed
additional drop of the unlabeled final row would give.  The final row
survives `dropna` because `astype(int)` already turned its undefined label
into 0. -/
theorem build_features_keeps_final_row :
    (MLTrain.build_features (fun _ => 0) (demoBars 12)).length = 2
    ∧ ¬((MLTrain.build_features (fun _ => 0) (demoBars 12)).length
        ≤ 12 - 11) := by
  have h : (MLTrain.build_features (fun _ => 0) (demoBars 12)).length = 2 := by
    rw [length_build_features, length_demoBars]
  exact ⟨h, by rw [h]; omega⟩

/-- C4 (code behaviour at the failing input): the 11-bar frame with strictly
increasing closes 1..11 retains exactly one training row (index 10, the
final bar), and its `target_up_tomorrow` is 0, not 1: the final row has no
tomorrow, its comparison against the NaN shift is `False`, and `astype(int)`
labels it 0 instead of dropping it. -/
theorem increasing_close_retains_zero_label :
    (∀ i, i + 1 < (demoBars 11).length →
      ((demoBars 11).getD i ⟨0, 0, 0⟩).close
        < ((demoBars 11).getD (i + 1) ⟨0, 0, 0⟩).close)
    ∧ (MLTrain.build_features (fun _ => 0) (demoBars 11)).map
        (fun r => r.target_up_tomorrow) = [0] := by
  refine ⟨fun i hi => demoBars_strictMono 11 i (by
    rw [length_demoBars] at hi; exact hi), ?_⟩
  rw [build_features_eq_filterTen, List.map_map, length_demoBars]
  rw [show (List.range 11).filter (fun i => decide (10 ≤ i)) = [10] from by
    decide]
  show [(MLTrain.mkRow (fun _ => 0) (demoBars 11) 10).target_up_tomorrow]
    = [0]
  have ht : (targetSeries (demoBars 11)).getD 10 0 = 0 := by
    have h := targetSeries_getD_last (demoBars 11)
      (by rw [length_demoBars]; omega)
    rw [length_demoBars] at h
    exact h
  rw [show (MLTrain.mkRow (fun _ => 0) (demoBars 11) 10).target_up_tomorrow
    = (targetSeries (demoBars 11)).getD 10 0 from rfl, ht]

/-- C7: any 5-bar input is below the 10-day warmup, so prediction fails (zero
feature rows survive, tripping `/predict`'s insufficient-data check) and so
does training (an empty labeled frame is rejected by `TimeSeriesSplit(5)`,
which needs at least 6 rows for 5 non-degenerate folds). -/
theorem five_bars_insufficient_data (sqrt : ℚ → ℚ) (df : List Bar)
    (h5 : df.length = 5) :
    MLServe.engineer_features sqrt df = []
    ∧ MLServe.predictDataCheck (MLServe.engineer_features sqrt df) =
        .error "Not enough bars after feature engineering (too short range)."
    ∧ MLTrain.build_features sqrt df = []
    ∧ MLTrain.train_timeseries_splits (MLTrain.build_features sqrt df)
        = none := by
  have he : MLServe.engineer_features sqrt df = [] := by
    rw [← List.length_eq_zero, length_engineer_features, h5]
  have hb : MLTrain.build_features sqrt df = [] := by
    rw [← List.length_eq_zero, length_build_features, h5]
  refine ⟨he, ?_, hb, ?_⟩
  · rw [he]
    rfl
  · rw [hb]
    rfl

/-- Witness for C7 at a concrete 5-bar frame. -/
theorem five_bars_insufficient_data_witness :
    (demoBars 5).length = 5
    ∧ (MLServe.engineer_features (fun _ => 0) (demoBars 5) = []
      ∧ MLServe.predictDataCheck
          (MLServe.engineer_features (fun _ => 0) (demoBars 5)) =
        .error "Not enough bars after feature engineering (too short range)."
      ∧ MLTrain.build_features (fun _ => 0) (demoBars 5) = []
      ∧ MLTrain.train_timeseries_splits
          (MLTrain.build_features (fun _ => 0) (demoBars 5)) = none) :=
  ⟨length_demoBars 5,
   five_bars_insufficient_data (fun _ => 0) (demoBars 5) (length_demoBars 5)⟩

/-- C6: `pick_latest_row_features` raises `SchemaMismatch` naming exactly the
schema columns absent from the engineered frame, if and only if at least one
is absent; when every schema column is present it returns the as-of date and
the feature vector of the most recent row in schema order. -/
theorem pick_latest_row_spec (df : MLServe.DFrame)
    (feature_cols : List String) (last : List ℚ)
    (hlast : df.rows.getLast? = some last) :
    (MLServe.missingFeatureCols df feature_cols ≠ [] →
      MLServe.pick_latest_row_features df feature_cols =
        .error (.schemaMismatch (MLServe.missingFeatureCols df feature_cols)))
    ∧ (∀ m, MLServe.pick_latest_row_features df feature_cols =
          .error (.schemaMismatch m) →
        m = MLServe.missingFeatureCols df feature_cols ∧ m ≠ [])
    ∧ (MLServe.missingFeatureCols df feature_cols = [] →
      MLServe.pick_latest_row_features df feature_cols =
        .ok (MLServe.asOfVal df.cols last,
             feature_cols.map (MLServe.cellVal df.cols last))) := by
  unfold MLServe.pick_latest_row_features
  by_cases hm : (MLServe.missingFeatureCols df feature_cols).isEmpty = true
  · rw [if_pos hm, hlast]
    have hnil := List.isEmpty_iff.mp hm
    refine ⟨fun hne => absurd hnil hne, ?_, fun _ => rfl⟩
    intro m hcontra
    exact Except.noConfusion hcontra
  · rw [if_neg hm]
    have hne : MLServe.missingFeatureCols df feature_cols ≠ [] := by
      intro h0
      exact hm (by rw [h0]; rfl)
    refine ⟨fun _ => rfl, ?_, fun h0 => absurd h0 hne⟩
    intro m hm2
    have := Except.error.inj hm2
    have hmv := MLServe.PickErr.schemaMismatch.inj this
    exact ⟨hmv.symm, by rw [← hmv]; exact hne⟩

/-- Witness for C6: a frame missing `ma_5` triggers the mismatch naming
exactly `ma_5`; a complete two-row frame yields the latest row's date and
features in schema order. -/
theorem pick_latest_row_spec_witness :
    MLServe.pick_latest_row_features ⟨["day", "ret_1d"], [[1, 2]]⟩
        ["ret_1d", "ma_5"] = .error (.schemaMismatch ["ma_5"])
    ∧ MLServe.pick_latest_row_features
        ⟨["day", "ret_1d", "ma_5"], [[1, 5, 7], [2, 6, 8]]⟩
        ["ret_1d", "ma_5"] = .ok (some 2, [6, 8]) := by
  constructor
  · have h := (pick_latest_row_spec ⟨["day", "ret_1d"], [[1, 2]]⟩
      ["ret_1d", "ma_5"] [1, 2] rfl).1
    rw [show MLServe.missingFeatureCols ⟨["day", "ret_1d"], [[1, 2]]⟩
      ["ret_1d", "ma_5"] = ["ma_5"] from rfl] at h
    exact h (by intro hc; exact List.noConfusion hc)
  · have h := (pick_latest_row_spec
      ⟨["day", "ret_1d", "ma_5"], [[1, 5, 7], [2, 6, 8]]⟩
      ["ret_1d", "ma_5"] [2, 6, 8] rfl).2.2 rfl
    exact h

/-- C8: a prediction request that does not pin a model path resolves the
model through `latest_model_for_symbol`, which fails with the
`FileNotFoundError` (`No model found for …`) whenever no stored file matches
the symbol's artifact pattern. -/
theorem predict_no_artifact_fails (symbol : String) (files : List String)
    (h : ∀ f ∈ files, MLServe.globMatches symbol f = false) :
    MLServe.resolveModelPath none symbol files =
      .error ("No model found for " ++ symbol) := by
  show MLServe.latest_model_for_symbol symbol files = _
  unfold MLServe.latest_model_for_symbol
  have hf : files.filter (MLServe.globMatches symbol) = [] := by
    rw [List.filter_eq_nil_iff]
    intro a ha
    simp [h a ha]
  rw [hf, List.mergeSort_nil]
  rfl

/-- Witness for C8: a store holding only another symbol's artifact. -/
theorem predict_no_artifact_fails_witness :
    (∀ f ∈ ["MSFT_20240101_000000_logreg.joblib"],
      MLServe.globMatches "aapl" f = false)
    ∧ MLServe.resolveModelPath none "aapl"
        ["MSFT_20240101_000000_logreg.joblib"] =
      .error ("No model found for " ++ "aapl") := by
  have h : ∀ f ∈ ["MSFT_20240101_000000_logreg.joblib"],
      MLServe.globMatches "aapl" f = false := by decide
  exact ⟨h, predict_no_artifact_fails "aapl"
    ["MSFT_20240101_000000_logreg.joblib"] h⟩

/-- C9: whenever at least one stored file matches the symbol's artifact
pattern, `latest_model_for_symbol` returns a matching stored file that is
lexicographically greatest among all matching files (`sorted(...)[-1]`). -/
theorem latest_model_is_lex_max (symbol : String) (files : List String)
    (m : String) (hm : m ∈ files)
    (hmatch : MLServe.globMatches symbol m = true) :
    ∃ b, MLServe.latest_model_for_symbol symbol files = .ok b
      ∧ b ∈ files ∧ MLServe.globMatches symbol b = true
      ∧ ∀ f ∈ files, MLServe.globMatches symbol f = true →
          pyStrLe f b = true := by
  unfold MLServe.latest_model_for_symbol
  have hperm : ((files.filter (MLServe.globMatches symbol)).mergeSort
      pyStrLe).Perm (files.filter (MLServe.globMatches symbol)) :=
    List.mergeSort_perm _ pyStrLe
  have hmem : m ∈ files.filter (MLServe.globMatches symbol) :=
    List.mem_filter.mpr ⟨hm, hmatch⟩
  have hne : (files.filter (MLServe.globMatches symbol)).mergeSort pyStrLe
      ≠ [] := by
    intro h0
    rw [h0] at hperm
    exact absurd (hperm.symm.eq_nil ▸ hmem) (List.not_mem_nil m)
  obtain ⟨b, hb⟩ := Option.isSome_iff_exists.mp
    (List.getLast?_isSome.mpr hne)
  have hbs : b ∈ (files.filter (MLServe.globMatches symbol)).mergeSort
      pyStrLe := by
    obtain ⟨ys, hys⟩ := List.getLast?_eq_some_iff.mp hb
    rw [hys]
    simp
  have hbc : b ∈ files.filter (MLServe.globMatches symbol) :=
    hperm.mem_iff.mp hbs
  refine ⟨b, by rw [hb], (List.mem_filter.mp hbc).1,
    (List.mem_filter.mp hbc).2, ?_⟩
  intro f hf hfmatch
  have hfs : f ∈ (files.filter (MLServe.globMatches symbol)).mergeSort
      pyStrLe := hperm.mem_iff.mpr (List.mem_filter.mpr ⟨hf, hfmatch⟩)
  have hsorted : List.Pairwise (fun x y => pyStrLe x y = true)
      ((files.filter (MLServe.globMatches symbol)).mergeSort pyStrLe) :=
    List.sorted_mergeSort pyStrLe_trans pyStrLe_total _
  rcases pairwise_getLast_max hsorted hb f hfs with rfl | hle
  · exact pyStrLe_refl f
  · exact hle

/-- Witness for C9: among two AAPL artifacts the later timestamp wins. -/
theorem latest_model_is_lex_max_witness :
    "AAPL_20250101_000000_logreg.joblib" ∈
        ["AAPL_20250102_090000_logreg.joblib",
         "AAPL_20250101_000000_logreg.joblib",
         "MSFT_20250107_000000_logreg.joblib"]
    ∧ MLServe.globMatches "aapl" "AAPL_20250101_000000_logreg.joblib" = true
    ∧ ∃ b, MLServe.latest_model_for_symbol "aapl"
          ["AAPL_20250102_090000_logreg.joblib",
           "AAPL_20250101_000000_logreg.joblib",
           "MSFT_20250107_000000_logreg.joblib"] = .ok b
        ∧ b ∈ ["AAPL_20250102_090000_logreg.joblib",
               "AAPL_20250101_000000_logreg.joblib",
               "MSFT_20250107_000000_logreg.joblib"]
        ∧ MLServe.globMatches "aapl" b = true
        ∧ ∀ f ∈ ["AAPL_20250102_090000_logreg.joblib",
                 "AAPL_20250101_000000_logreg.joblib",
                 "MSFT_20250107_000000_logreg.joblib"],
            MLServe.globMatches "aapl" f = true → pyStrLe f b = true := by
  refine ⟨by decide, by decide, ?_⟩
  exact latest_model_is_lex_max "aapl"
    ["AAPL_20250102_090000_logreg.joblib",
     "AAPL_20250101_000000_logreg.joblib",
     "MSFT_20250107_000000_logreg.joblib"]
    "AAPL_20250101_000000_logreg.joblib" (by decide) (by decide)

/-- C10: under heap semantics, neither feature builder mutates the caller's
DataFrame: both start with `out = df.copy()` and every subsequent write
targets the copy (or a freshly allocated sort/dropna result), so the object
`df` references is unchanged when the function returns. -/
theorem feature_builders_no_mutation (sqrt : ℚ → ℚ) (heap : List DFObj)
    (df : ℕ) (hdf : df < heap.length) :
    (MLTrain.build_features_prog sqrt heap df).1.getD df []
      = heap.getD df []
    ∧ (MLServe.engineer_features_prog sqrt heap df).1.getD df []
      = heap.getD df [] := by
  have hne : df ≠ heap.length := by omega
  constructor
  · unfold MLTrain.build_features_prog
    rw [getD_append_singleton_lt _ _ _ _ (by
      simp only [length_writeCol, List.length_append,
        List.length_singleton]
      omega)]
    rw [getD_writeCol_ne _ _ _ _ _ hne, getD_writeCol_ne _ _ _ _ _ hne,
      getD_writeCol_ne _ _ _ _ _ hne, getD_writeCol_ne _ _ _ _ _ hne,
      getD_writeCol_ne _ _ _ _ _ hne, getD_writeCol_ne _ _ _ _ _ hne,
      getD_writeCol_ne _ _ _ _ _ hne, getD_writeCol_ne _ _ _ _ _ hne,
      getD_writeCol_ne _ _ _ _ _ hne]
    exact getD_append_singleton_lt _ _ _ _ hdf
  · unfold MLServe.engineer_features_prog
    have hlen2 : (writeCol (heap ++ [heap.getD df []]) heap.length "day"
        (getColObj ((heap ++ [heap.getD df []]).getD heap.length [])
          "day")).length = heap.length + 1 := by
      simp only [length_writeCol, List.length_append, List.length_singleton]
    have hne2 : df ≠ (writeCol (heap ++ [heap.getD df []]) heap.length "day"
        (getColObj ((heap ++ [heap.getD df []]).getD heap.length [])
          "day")).length := by
      rw [hlen2]
      omega
    rw [getD_append_singleton_lt _ _ _ _ (by
      simp only [length_writeCol, List.length_append,
        List.length_singleton]
      omega)]
    rw [getD_writeCol_ne _ _ _ _ _ hne2, getD_writeCol_ne _ _ _ _ _ hne2,
      getD_writeCol_ne _ _ _ _ _ hne2, getD_writeCol_ne _ _ _ _ _ hne2,
      getD_writeCol_ne _ _ _ _ _ hne2, getD_writeCol_ne _ _ _ _ _ hne2,
      getD_writeCol_ne _ _ _ _ _ hne2, getD_writeCol_ne _ _ _ _ _ hne2]
    rw [getD_append_singleton_lt _ _ _ _ (by rw [hlen2]; omega)]
    rw [getD_writeCol_ne _ _ _ _ _ hne]
    exact getD_append_singleton_lt _ _ _ _ hdf

/-- Witness for C10 on a one-object heap. -/
theorem feature_builders_no_mutation_witness :
    (0 : ℕ) < [[("close", [some (1 : ℚ)])]].length
    ∧ (MLTrain.build_features_prog (fun _ => 0)
          [[("close", [some (1 : ℚ)])]] 0).1.getD 0 []
        = [[("close", [some (1 : ℚ)])]].getD 0 []
    ∧ (MLServe.engineer_features_prog (fun _ => 0)
          [[("close", [some (1 : ℚ)])]] 0).1.getD 0 []
        = [[("close", [some (1 : ℚ)])]].getD 0 [] := by
  have h := feature_builders_no_mutation (fun _ => 0)
    [[("close", [some (1 : ℚ)])]] 0 (by simp)
  exact ⟨by simp, h.1, h.2⟩
